import Mathlib

/-!
Shallow embedding of the wrustblog content pipeline.

Strings are modeled as lists of characters (`Str`). Rust's byte indices into
UTF-8 strings are modeled by character indices; every pattern handled by the
code (`---`, `.md`, `/`, template names) is ASCII, and occurrences of an ASCII
pattern correspond one to one between byte positions and character positions,
so slicing at those positions agrees.

Timestamps (`chrono::DateTime<Utc>`, minute precision) are modeled as integers;
the code only compares them, so any linearly ordered model is faithful.
`Tag` is a newtype of `String` and is modeled as `Str` directly.
-/

/-- Character-list model of Rust `String`/`&str`. -/
abbrev Str := List Char

/-- Rust `str::replace` scan with explicit fuel (the fuel starts at the length
of the scanned list and strictly dominates it, so it never runs out): replace
non-overlapping occurrences of `pat` left to right with `rep`. The call sites
in the repository only use the non-empty pattern `".md"`; the empty-pattern
behavior is not modeled (the scan leaves the text unchanged). -/
def strReplaceGo (rep pat : Str) : Nat → Str → Str
  | 0, l => l
  | _ + 1, [] => []
  | fuel + 1, c :: tl =>
    if pat ≠ [] ∧ pat.isPrefixOf (c :: tl) = true then
      rep ++ strReplaceGo rep pat fuel (List.drop pat.length (c :: tl))
    else c :: strReplaceGo rep pat fuel tl

/-- Rust `str::replace`: `l.replace(pat, rep)`. -/
def strReplace (l pat rep : Str) : Str := strReplaceGo rep pat l.length l

/-- Segment accumulator for `pathSegs`; `cur` holds the current segment
reversed. -/
def pathSegsGo (cur : Str) : Str → List Str
  | [] => if cur = [] then [] else [cur.reverse]
  | c :: tl =>
    if c = '/' then
      if cur = [] then pathSegsGo [] tl else cur.reverse :: pathSegsGo [] tl
    else pathSegsGo (c :: cur) tl

/-- The non-empty normal components of a path (Rust `Path::components` without
the root marker): split on `/`, dropping empty segments. The paths the code
handles contain no `.` or `..` components. -/
def pathSegs (p : Str) : List Str := pathSegsGo [] p

/-- Rust `Path::file_name` for the paths the code handles: the final path
segment (empty for a root or empty path). -/
def path_file_name (p : Str) : Str := (pathSegs p).getLastD []

/-- Index of the last `.` of a file name, if any. -/
def last_dot_index (fn : Str) : Option Nat :=
  match fn.reverse.findIdx? (· == '.') with
  | none => none
  | some j => some (fn.length - 1 - j)

/-- Rust `Path::extension`: the part of the file name after its last dot;
`none` when there is no dot or when the only dot is the leading character of
the file name (hidden files such as `.md` have no extension). -/
def path_extension (p : Str) : Option Str :=
  let fn := path_file_name p
  match last_dot_index fn with
  | none => none
  | some 0 => none
  | some i => some (List.drop (i + 1) fn)

/-- Whether `p` is an absolute path. -/
def path_is_absolute (p : Str) : Bool := p.head? = some '/'

namespace errors

/-- `Error` (src/errors.rs 3-8). -/
inductive Error where
  | Undefined (msg : Str)
  | NoFrontMatter (file : Str)
  | NoBlogTemplateFound
  | NoPostsTemplateFound
deriving DecidableEq

end errors

namespace content

/-- Index of the first occurrence of `pat` in a string, as in Rust
`str::find` with a string pattern: `none` when there is no occurrence,
`some 0` for the empty pattern. -/
def strFind (pat : Str) : Str → Option Nat
  | [] => if pat.isPrefixOf [] then some 0 else none
  | c :: tl => if pat.isPrefixOf (c :: tl) then some 0 else (strFind pat tl).map (· + 1)

/-- `split_content` (src/content.rs 252-266). Returns `(body, front_matter)`:
if the text starts with `---`, the text up to and including the closing
delimiter is the front matter and the rest is the body; with no closing
delimiter the original full text is the body and the front matter is empty; a
text that does not start with the delimiter is all body. -/
def split_content (content : Str) : Str × Str :=
  let delimiter : Str := "---".data
  if delimiter.isPrefixOf content then
    let rest := List.drop delimiter.length content
    match strFind delimiter rest with
    | some e =>
        (List.drop (e + delimiter.length) rest,
         List.take (e + 2 * delimiter.length) content)
    | none => (content, [])
  else (content, [])

/-- `content::Post` (src/content.rs 74-90), after deserialization and the
completions done by `read_post_file`: `content` holds the converted HTML body,
`file_name` the derived output name, `year` the decimal year string. -/
structure Post where
  title : Str
  date : Int
  tags : List Str
  summary : Str
  content : Str
  favorite : Bool
  file_name : Str
  author : Str
  year : Str
deriving DecidableEq

/-- `content::PostMetadata` (src/content.rs 92-102); `file_name` is set by
`read_post_metadata` to the basename of the source file, `.md` included. -/
structure PostMetadata where
  title : Str
  date : Int
  tags : List Str
  summary : Str
  author : Str
  file_name : Str
deriving DecidableEq

/-- Deserialized front matter of the blog home document (the non-defaulted
fields of `content::Blog`). -/
structure BlogFrontMatter where
  title : Str
  twitter : Str
  author : Str
  year : Nat

/-- `content::Blog` (src/content.rs 10-22); `year` is a `u16`, modeled as
`Nat`. -/
structure Blog where
  title : Str
  twitter : Str
  author : Str
  year : Nat
  home_content : Str
  posts : List Post
  post_assets : List Str

/-- Outcome of `Matter::<YAML>::parse` followed by `data.deserialize()`:
`noData` models `result.data == None`, `deserializeError` a serde failure
(wrapped into `Error::Undefined`), `ok` a successful deserialization. -/
inductive ParseOutcome (α : Type) where
  | noData
  | deserializeError (msg : Str)
  | ok (value : α)

/-- Read-only filesystem used by the content loaders: maps a path to the file
contents `std::fs::read_to_string` returns, `none` for an I/O error. -/
abbrev ReadFs := Str → Option Str

/-- `read_blog_file` (src/content.rs 43-67), with the markdown conversion
(pulldown_cmark with the image rewrite hook) abstracted as `md` and the
front-matter parse/deserialize abstracted as `parse`. Besides the result it
returns the list of file paths the function reads, to state which root files
are consumed. `Path::join` on the slash-free reserved name is plain
concatenation with a separator. -/
def read_blog_file (md : Str → Str) (parse : Str → ParseOutcome BlogFrontMatter)
    (fs : ReadFs) (dir : Str) : Except errors.Error Blog × List Str :=
  let blog_file := dir ++ "/blog.md".data
  match fs blog_file with
  | none => (Except.error (errors.Error.Undefined "io error".data), [blog_file])
  | some blog_contents =>
    let split := split_content blog_contents
    let front_matter := split.2
    if front_matter = [] then
      (Except.error (errors.Error.NoFrontMatter blog_file), [blog_file])
    else
      let html_output := md split.1
      match parse front_matter with
      | ParseOutcome.noData =>
          (Except.error (errors.Error.NoFrontMatter blog_file), [blog_file])
      | ParseOutcome.deserializeError m =>
          (Except.error (errors.Error.Undefined m), [blog_file])
      | ParseOutcome.ok d =>
          (Except.ok
            { title := d.title, twitter := d.twitter, author := d.author,
              year := d.year, home_content := html_output, posts := [],
              post_assets := [] },
           [blog_file])

/-- `PostItem` (src/content.rs 69-72): classification of a posts-directory
entry produced by `read_post_files`, in directory-enumeration order. -/
inductive PostItem where
  | content (post : Post)
  | asset (path : Str)

/-- The partition loop of `Blog::read_from` (src/content.rs 29-34), content
side: the posts in document (enumeration) order. -/
def document_posts (items : List PostItem) : List Post :=
  items.filterMap fun item =>
    match item with
    | PostItem.content post => some post
    | PostItem.asset _ => none

/-- The partition loop of `Blog::read_from` (src/content.rs 29-34), asset
side. -/
def document_assets (items : List PostItem) : List Str :=
  items.filterMap fun item =>
    match item with
    | PostItem.content _ => none
    | PostItem.asset path => some path

/-- One insertion step of the stable sort: the new element goes before the
first element whose date is less than or equal to its own, hence after every
earlier element with an equal date. -/
def sort_insert (x : Post) : List Post → List Post
  | [] => [x]
  | y :: ys => if y.date ≤ x.date then x :: y :: ys else y :: sort_insert x ys

/-- `posts.sort_by(|a, b| b.date.0.cmp(&a.date.0))` (src/content.rs 35).
Rust's `sort_by` is a stable sort; the comparator is the total preorder
"descending by date", under which the stable sorted output is unique, so
stable insertion sort is an exact model. -/
def sort_by_date_desc : List Post → List Post
  | [] => []
  | x :: xs => sort_insert x (sort_by_date_desc xs)

/-- `Blog::read_from` (src/content.rs 25-40) after the directory scan and the
home-document load: partition the scanned items, sort the posts newest first,
and attach both sequences to the blog record read by `read_blog_file`. -/
def Blog.read_from (items : List PostItem) (blog0 : Blog) : Blog :=
  { blog0 with
      posts := sort_by_date_desc (document_posts items)
      post_assets := document_assets items }

end content

namespace templates

/-- `MAIN_TEMPLATE` (src/templates.rs 6). -/
def MAIN_TEMPLATE : Str := "index.html".data

/-- `POST_TEMPLATE` (src/templates.rs 7). -/
def POST_TEMPLATE : Str := "post.html".data

/-- `templates::Main::read_from_dir` (src/templates.rs 14-21). The Ramhorns
template set loaded from the directory is modeled by the list of template
names present; on success the loaded set is returned. -/
def Main.read_from_dir (templates_dir : List Str) : Except errors.Error (List Str) :=
  if MAIN_TEMPLATE ∈ templates_dir then Except.ok templates_dir
  else Except.error errors.Error.NoBlogTemplateFound

/-- `templates::Post::read_from_dir` (src/templates.rs 34-41): the check is on
`POST_TEMPLATE`, but the error returned is `NoBlogTemplateFound`, same as the
home-template case. -/
def Post.read_from_dir (templates_dir : List Str) : Except errors.Error (List Str) :=
  if POST_TEMPLATE ∈ templates_dir then Except.ok templates_dir
  else Except.error errors.Error.NoBlogTemplateFound

/-- `templates::Blog::read_from_dir` (src/templates.rs 55-60): main first,
then post. -/
def Blog.read_from_dir (templates_dir : List Str) : Except errors.Error (List Str) := do
  let _main ← Main.read_from_dir templates_dir
  let _post ← Post.read_from_dir templates_dir
  Except.ok templates_dir

/-- `templates::PostTemplateModel` (src/templates.rs 85-98). The date is kept
as the domain timestamp; its `YYYY-MM-DD HH:MM` formatting happens in the
render callback, outside the model. -/
structure PostTemplateModel where
  title : Str
  date : Int
  tags : List Str
  summary : Str
  root_page : Str
  content : Str
  favorite : Bool
  file_name : Str
  author : Str
  year : Str
deriving DecidableEq

end templates

namespace pack

/-- State of one output directory: `none` when absent, `some entries` when
present with the listed entries. -/
abbrev DirState := Option (List Str)

/-- `ensure_dir_is_empty` (src/pack.rs 131-137): remove the directory if
present, then create it empty. -/
def ensure_dir_is_empty (_dir : DirState) : DirState := some []

/-- The post-assets phase of `PackCommand::run` (src/pack.rs 108-127): the
loop over the discovered assets calls `ensure_dir_is_empty` on the output
`post_assets` directory inside the loop body and then copies the current asset
into it by basename. -/
def copy_post_assets (post_assets : List Str) (dir0 : DirState) : DirState :=
  post_assets.foldl
    (fun dirState src_asset_path =>
      let dirState := ensure_dir_is_empty dirState
      let asset_file_name := path_file_name src_asset_path
      match dirState with
      | some entries => some (entries ++ [asset_file_name])
      | none => none)
    dir0

/-- The per-post template model built by `PackCommand::run` (src/pack.rs
58-73). -/
def post_template_model (post : content.Post) : templates.PostTemplateModel :=
  { title := post.title
    date := post.date
    tags := post.tags
    summary := post.summary
    root_page := "index.html".data
    content := post.content
    favorite := post.favorite
    file_name := post.file_name
    author := post.author
    year := post.year }

end pack

namespace serve

/-- The response status codes `serve_static` can construct. -/
inductive StatusCode where
  | OK
  | NotFound
  | BadRequest
  | InternalServerError
deriving DecidableEq

/-- A filesystem entry as seen by `fs::metadata`. -/
inductive FsEntry where
  | file (size : Nat)
  | dir
deriving DecidableEq

/-- Result of statting or opening a path: found, absent
(`io::ErrorKind::NotFound`), or any other error. -/
inductive StatRes where
  | found (entry : FsEntry)
  | notFound
  | otherError
deriving DecidableEq

/-- Filesystem as a stat/open oracle on path strings. `fs::metadata` and
`fs::File::open` classify consistently: on Linux, opening an existing readable
entry read-only succeeds for files and directories alike. -/
abbrev Fs := Str → StatRes

/-- `Path::strip_prefix` modeled on components, for the slash-normalized
paths the handlers receive: succeeds when the route's components are a prefix
of the path's (with matching root), returning the remainder joined with `/`
and no leading separator, exactly as Rust's returned sub-path renders. -/
def strip_route (p route : Str) : Option Str :=
  if path_is_absolute route = path_is_absolute p ∧
      (pathSegs route).isPrefixOf (pathSegs p) = true then
    some (List.intercalate ['/'] (List.drop (pathSegs route).length (pathSegs p)))
  else none

/-- `Path::starts_with`: in Rust this holds exactly when `strip_prefix`
succeeds (both iterate components). -/
def path_starts_with (p route : Str) : Bool := (strip_route p route).isSome

/-- `HasAnyExtension::has_any_extension` (src/serve/mod.rs 418-428). -/
def has_any_extension (p : Str) (extensions : List Str) : Bool :=
  match path_extension p with
  | none => false
  | some ext => extensions.contains ext

/-- `PathBuf::push` of a relative string onto a base without trailing
separator: a separator then the pushed path (an empty push leaves a trailing
separator); an absolute pushed path replaces the base. -/
def path_push (base p : Str) : Str :=
  if path_is_absolute p then p else base ++ ('/' :: p)

/-- The tail of `serve_static` (src/serve/mod.rs 366-408): join the remaining
path onto the base directory, stat it, open it, and stream it. The response is
modeled by its status code. -/
def serve_static_resolve (base_dir uri : Str) (fs : Fs) : StatusCode :=
  let path := path_push base_dir uri
  match fs path with
  | StatRes.notFound => StatusCode.NotFound
  | StatRes.otherError => StatusCode.InternalServerError
  | StatRes.found _ =>
    match fs path with
    | StatRes.notFound => StatusCode.NotFound
    | StatRes.otherError => StatusCode.InternalServerError
    | StatRes.found _ => StatusCode.OK

/-- The root check of `serve_static` (src/serve/mod.rs 358-365), with the
source comment "Do not allow serving the root of the route.": it only fires
when the remaining path still starts with `/`. -/
def serve_static_root_check (base_dir uri : Str) (fs : Fs) : StatusCode :=
  if uri.head? = some '/' then
    if uri.length < 2 then StatusCode.NotFound
    else serve_static_resolve base_dir (List.drop 1 uri) fs
  else serve_static_resolve base_dir uri fs

/-- `serve_static` (src/serve/mod.rs 332-409): excluded-extension check, then
prefix stripping (only attempted when the path starts with the route), then
the root check and static resolution. -/
def serve_static (route : Str) (base_dir : Str) (request_uri : Str)
    (exclude_extensions : Option (List Str)) (fs : Fs) : StatusCode :=
  let excluded :=
    match exclude_extensions with
    | some exclude => has_any_extension request_uri exclude
    | none => false
  if excluded then StatusCode.NotFound
  else if path_starts_with request_uri route then
    match strip_route request_uri route with
    | some u => serve_static_root_check base_dir u fs
    | none => StatusCode.BadRequest
  else serve_static_root_check base_dir request_uri fs

/-- The per-post template model built by `generate_post_content`
(src/serve/mod.rs 251-283); `post_file` is the final segment of the request
path, and `post` the record `read_post_file` returns for
`content_dir/posts/<post_file>.md`. -/
def generate_post_content_model (post_file : Str) (post : content.Post) :
    templates.PostTemplateModel :=
  { author := post.author
    title := post.title
    root_page := "/".data
    content := post.content
    date := post.date
    favorite := post.favorite
    file_name := post_file
    summary := post.summary
    tags := post.tags
    year := post.year }

/-- The per-post listing model built by `generate_main_page_content`
(src/serve/mod.rs 297-319): the route is `format!("{}/{}", POSTS_ROUTE,
metadata.file_name.replace(".md", ""))`. -/
def generate_main_page_post_model (metadata : content.PostMetadata) :
    templates.PostTemplateModel :=
  let file_name := strReplace metadata.file_name ".md".data []
  let file_name := "/posts".data ++ ('/' :: file_name)
  { author := metadata.author
    title := metadata.title
    content := []
    date := metadata.date
    file_name := file_name
    root_page := "/".data
    summary := metadata.summary
    tags := metadata.tags
    favorite := false
    year := [] }

end serve

/-- The record `read_post_file` produces for a source post file with basename
`base.md`: the derived output file name is `base.html` (extension replaced).
For the same post, the serve handler's `post_file` argument is `base` (the
final segment of the listing route `/posts/base`). -/
def postBase : content.Post :=
  { title := "t".data, date := 0, tags := [], summary := "s".data,
    content := "<p>c</p>".data, favorite := false,
    file_name := "base.html".data, author := "a".data, year := "2020".data }

/-- A post metadata record with the legal source file name `a.md.md`
(its extension is `md`, so the metadata loader accepts it). -/
def metadataAMdMd : content.PostMetadata :=
  { title := "t".data, date := 0, tags := [], summary := "s".data,
    author := "a".data, file_name := "a.md.md".data }

/-- A post metadata record with the ordinary source file name `post-1.md`. -/
def metadataPost1 : content.PostMetadata :=
  { title := "t".data, date := 0, tags := [], summary := "s".data,
    author := "a".data, file_name := "post-1.md".data }

/-- A filesystem in which the template-assets base directory
`/srv/templates/assets` exists (so statting it with a trailing separator
succeeds) and nothing else does. -/
def fsAssetsDir : serve.Fs := fun p =>
  if p = "/srv/templates/assets/".data then serve.StatRes.found serve.FsEntry.dir
  else serve.StatRes.notFound

/-- The empty filesystem: every stat reports not-found. -/
def fsEmpty : serve.Fs := fun _ => serve.StatRes.notFound

theorem strFind_isPrefixOf {pat l : Str} {e : Nat}
    (h : content.strFind pat l = some e) :
    pat.isPrefixOf (List.drop e l) = true := by
  induction l generalizing e with
  | nil =>
    unfold content.strFind at h
    split at h
    · cases h
      simpa using ‹pat.isPrefixOf [] = true›
    · cases h
  | cons c tl ih =>
    unfold content.strFind at h
    split at h
    next hp =>
      cases h
      simpa using hp
    next hp =>
      cases hf : content.strFind pat tl with
      | none => rw [hf] at h; cases h
      | some e' =>
        rw [hf] at h
        simp only [Option.map_some'] at h
        cases h
        simpa using ih hf

/-- C8: for every input text that starts with the delimiter `---` but contains
no second occurrence of `---` (no occurrence beginning at any position past
the start), `split_content` returns the original unmodified text as the body
with empty front matter; and for every input text that does not start with
`---`, it returns the entire text as the body with empty front matter. -/
theorem split_content_no_closing_delimiter (c : Str) :
    (("---".data).isPrefixOf c = true →
      (∀ i, i < c.length → 1 ≤ i →
        ("---".data).isPrefixOf (List.drop i c) = false) →
      content.split_content c = (c, [])) ∧
    (("---".data).isPrefixOf c = false → content.split_content c = (c, [])) := by
  have h3 : ("---".data).length = 3 := rfl
  constructor
  · intro hpre hocc
    have hnone : content.strFind "---".data (List.drop 3 c) = none := by
      cases hf : content.strFind "---".data (List.drop 3 c) with
      | none => rfl
      | some e =>
        exfalso
        have hp := strFind_isPrefixOf hf
        rw [List.drop_drop] at hp
        by_cases hlt : e + 3 < c.length
        · have hfalse := hocc (3 + e) (by omega) (by omega)
          rw [hfalse] at hp
          cases hp
        · have hnil : List.drop (3 + e) c = [] := List.drop_eq_nil_of_le (by omega)
          rw [hnil] at hp
          simp at hp
    unfold content.split_content
    simp only [h3, hpre, if_true, hnone]
  · intro hpre
    unfold content.split_content
    simp only [hpre, Bool.false_eq_true, if_false]

/-- C8 witness: the text `---abc` starts with the delimiter and has no second
occurrence of it; the splitter returns it whole as the body with empty front
matter. -/
theorem split_content_no_closing_delimiter_witness :
    content.split_content "---abc".data = ("---abc".data, []) :=
  (split_content_no_closing_delimiter "---abc".data).1 (by decide) (by decide)

/-- C10: the splitter partitions its input: the returned front matter followed
by the returned body is always the original text, and whenever the returned
front matter is empty the returned body is exactly the original text — no
characters are lost or duplicated. -/
theorem split_content_partitions (c : Str) :
    (content.split_content c).2 ++ (content.split_content c).1 = c ∧
    ((content.split_content c).2 = [] → (content.split_content c).1 = c) := by
  have h3 : ("---".data).length = 3 := rfl
  unfold content.split_content
  simp only [h3]
  split
  next hpre =>
    split
    next e heq =>
      constructor
      · show List.take (e + 2 * 3) c ++ List.drop (e + 3) (List.drop 3 c) = c
        rw [List.drop_drop]
        have harith : 3 + (e + 3) = e + 2 * 3 := by omega
        rw [harith]
        exact List.take_append_drop _ c
      · intro htake
        exfalso
        have hc : c = [] := by
          rcases List.take_eq_nil_iff.mp htake with h | h
          · omega
          · exact h
        rw [hc] at hpre
        simp at hpre
    next heq => exact ⟨by simp, fun _ => rfl⟩
  next hpre => exact ⟨by simp, fun _ => rfl⟩

/-- C10 witness: at the delimiter-free text `abc` the front matter is empty
and the body is the whole text. -/
theorem split_content_partitions_witness :
    (content.split_content "abc".data).2 ++ (content.split_content "abc".data).1 =
      "abc".data ∧
    (content.split_content "abc".data).1 = "abc".data :=
  ⟨(split_content_partitions "abc".data).1,
   (split_content_partitions "abc".data).2 (by decide)⟩

theorem sort_insert_perm (x : content.Post) (l : List content.Post) :
    (content.sort_insert x l).Perm (x :: l) := by
  induction l with
  | nil => exact List.Perm.refl _
  | cons y ys ih =>
    unfold content.sort_insert
    split
    · exact List.Perm.refl _
    · exact (ih.cons y).trans (List.Perm.swap x y ys)

theorem sort_insert_pairwise (x : content.Post) (l : List content.Post)
    (h : l.Pairwise fun a b => b.date ≤ a.date) :
    (content.sort_insert x l).Pairwise fun a b => b.date ≤ a.date := by
  induction l with
  | nil => simp [content.sort_insert]
  | cons y ys ih =>
    rw [List.pairwise_cons] at h
    obtain ⟨hy, hys⟩ := h
    unfold content.sort_insert
    split
    next hle =>
      refine List.Pairwise.cons ?_ (List.Pairwise.cons hy hys)
      intro b hb
      rcases List.mem_cons.mp hb with rfl | hb
      · exact hle
      · exact le_trans (hy b hb) hle
    next hgt =>
      refine List.Pairwise.cons ?_ (ih hys)
      intro b hb
      have hb' : b = x ∨ b ∈ ys := by
        simpa using (sort_insert_perm x ys).mem_iff.mp hb
      rcases hb' with rfl | hb'
      · omega
      · exact hy b hb'

theorem sort_insert_filter (x : content.Post) (l : List content.Post) (d : Int) :
    (content.sort_insert x l).filter (fun p => p.date == d) =
      if x.date == d then x :: l.filter (fun p => p.date == d)
      else l.filter (fun p => p.date == d) := by
  induction l with
  | nil =>
    simp only [content.sort_insert, List.filter]
    by_cases hx : x.date == d <;> simp [hx]
  | cons y ys ih =>
    unfold content.sort_insert
    split
    next hle =>
      rw [List.filter_cons]
    next hgt =>
      rw [List.filter_cons, ih, List.filter_cons]
      by_cases hx : x.date == d
      · have hxd : x.date = d := by simpa using hx
        have hyd : (y.date == d) = false := by
          rw [beq_eq_false_iff_ne]
          omega
        simp [hx, hyd]
      · simp only [hx, if_false]
        by_cases hy : y.date == d <;> simp [hy]

theorem sort_by_date_desc_pairwise (l : List content.Post) :
    (content.sort_by_date_desc l).Pairwise fun a b => b.date ≤ a.date := by
  induction l with
  | nil => simp [content.sort_by_date_desc]
  | cons x xs ih => exact sort_insert_pairwise x _ ih

theorem sort_by_date_desc_perm (l : List content.Post) :
    (content.sort_by_date_desc l).Perm l := by
  induction l with
  | nil => exact List.Perm.refl _
  | cons x xs ih => exact (sort_insert_perm x _).trans (ih.cons x)

theorem sort_by_date_desc_filter (l : List content.Post) (d : Int) :
    (content.sort_by_date_desc l).filter (fun p => p.date == d) =
      l.filter (fun p => p.date == d) := by
  induction l with
  | nil => rfl
  | cons x xs ih =>
    show (content.sort_insert x (content.sort_by_date_desc xs)).filter _ = _
    rw [sort_insert_filter, List.filter_cons]
    by_cases hx : x.date == d <;> simp [hx, ih]

/-- C7: the posts sequence of the blog built by `Blog::read_from` is sorted by
publish timestamp descending (newest first), it is a permutation of the posts
in document (directory-enumeration) order, and the sort is stable: filtering
the result by any fixed timestamp returns exactly the posts with that
timestamp in their original document order. -/
theorem read_from_posts_sorted_stable (items : List content.PostItem)
    (blog0 : content.Blog) :
    ((content.Blog.read_from items blog0).posts.Pairwise fun a b => b.date ≤ a.date) ∧
    (content.Blog.read_from items blog0).posts.Perm (content.document_posts items) ∧
    ∀ d : Int,
      (content.Blog.read_from items blog0).posts.filter (fun p => p.date == d) =
        (content.document_posts items).filter (fun p => p.date == d) :=
  ⟨sort_by_date_desc_pairwise _, sort_by_date_desc_perm _,
   fun d => sort_by_date_desc_filter _ d⟩

theorem strReplaceGo_nil (rep pat : Str) (fuel : Nat) :
    strReplaceGo rep pat fuel [] = [] := by
  cases fuel <;> rfl

theorem strReplaceGo_eats_tail (pat : Str) (hpat : pat ≠ []) :
    ∀ (base : Str) (fuel : Nat), (base ++ pat).length ≤ fuel →
      (∀ i, i < base.length → pat.isPrefixOf (List.drop i (base ++ pat)) = false) →
      strReplaceGo [] pat fuel (base ++ pat) = base := by
  intro base
  induction base with
  | nil =>
    intro fuel hfuel hocc
    cases pat with
    | nil => exact absurd rfl hpat
    | cons p ps =>
      cases fuel with
      | zero => simp at hfuel
      | succ f =>
        show strReplaceGo [] (p :: ps) (f + 1) ([] ++ p :: ps) = []
        rw [List.nil_append]
        unfold strReplaceGo
        rw [if_pos ⟨List.cons_ne_nil p ps, List.isPrefixOf_iff_prefix.mpr (List.prefix_refl _)⟩]
        rw [List.drop_length, strReplaceGo_nil, List.nil_append]
  | cons c bs ih =>
    intro fuel hfuel hocc
    cases fuel with
    | zero => simp at hfuel
    | succ f =>
      show strReplaceGo [] pat (f + 1) ((c :: bs) ++ pat) = c :: bs
      rw [List.cons_append]
      unfold strReplaceGo
      rw [if_neg]
      · have htail : strReplaceGo [] pat f (bs ++ pat) = bs := by
          refine ih f ?_ ?_
          · have := hfuel
            simp only [List.length_append, List.length_cons] at this ⊢
            omega
          · intro i hi
            have := hocc (i + 1) (by simpa using Nat.succ_lt_succ hi)
            simpa [List.cons_append] using this
        rw [htail]
      · intro hcond
        have := hocc 0 (by simp)
        rw [List.drop_zero, List.cons_append] at this
        rw [this] at hcond
        exact absurd hcond.2 (by simp)

theorem strReplace_strips_only_tail (base : Str)
    (hocc : ∀ i, i < base.length →
      (".md".data).isPrefixOf (List.drop i (base ++ ".md".data)) = false) :
    strReplace (base ++ ".md".data) ".md".data [] = base :=
  strReplaceGo_eats_tail ".md".data (by decide) base _ le_rfl hocc

/-- C9 (amended): the listing route built by `generate_main_page_content` is
the posts route segment followed by the source file name with every
(non-overlapping, leftmost-first) occurrence of the substring `.md` removed —
Rust `str::replace(".md", "")`, not a trailing-extension strip. For every file
name in which `.md` occurs only as the trailing extension the two coincide: a
source file name `base.md` yields route `/posts/base`. -/
theorem generate_main_page_route (metadata : content.PostMetadata) (base : Str)
    (hname : metadata.file_name = base ++ ".md".data)
    (hocc : ∀ i, i < base.length →
      (".md".data).isPrefixOf (List.drop i (base ++ ".md".data)) = false) :
    (serve.generate_main_page_post_model metadata).file_name = "/posts/".data ++ base := by
  show "/posts".data ++ ('/' :: strReplace metadata.file_name ".md".data []) =
    "/posts/".data ++ base
  rw [hname, strReplace_strips_only_tail base hocc]
  rfl

/-- C9 witness: the file name `post-1.md` yields the route `/posts/post-1`. -/
theorem generate_main_page_route_witness :
    (serve.generate_main_page_post_model metadataPost1).file_name =
      "/posts/".data ++ "post-1".data :=
  generate_main_page_route metadataPost1 "post-1".data (by decide) (by decide)

/-- C9 counterexample: the legal post source file name `a.md.md` would yield
route `/posts/a.md` under trailing-extension stripping, but the code removes
every `.md` occurrence and produces `/posts/a`. -/
theorem generate_main_page_route_counterexample :
    (serve.generate_main_page_post_model metadataAMdMd).file_name ≠ "/posts/a.md".data ∧
    (serve.generate_main_page_post_model metadataAMdMd).file_name = "/posts/a".data := by
  decide

/-- C1 (amended): for the same post file — source basename `stem.md`, for
which `read_post_file` derives `file_name = stem.html` and the serve handler
receives `post_file = stem` as the final segment of the listing route — the
serve-mode template model equals the pack-mode template model in every field
except `root_page` (pack `index.html`, serve `/`) and `file_name` (pack the
derived `.html` output name, serve the bare stem), and those two fields do
differ. -/
theorem pack_serve_post_models_agree (post : content.Post) (stem : Str)
    (hfile : post.file_name = stem ++ ".html".data) :
    serve.generate_post_content_model stem post =
      { pack.post_template_model post with
          root_page := "/".data, file_name := stem } ∧
    (pack.post_template_model post).root_page = "index.html".data ∧
    (pack.post_template_model post).file_name ≠
      (serve.generate_post_content_model stem post).file_name := by
  refine ⟨rfl, rfl, ?_⟩
  show post.file_name ≠ stem
  rw [hfile]
  intro h
  have hlen := congrArg List.length h
  have h5 : (".html".data).length = 5 := rfl
  simp only [List.length_append, h5] at hlen
  omega

/-- C1 witness: concrete instantiation at the post read from `base.md`. -/
theorem pack_serve_post_models_agree_witness :
    serve.generate_post_content_model "base".data postBase =
      { pack.post_template_model postBase with
          root_page := "/".data, file_name := "base".data } ∧
    (pack.post_template_model postBase).root_page = "index.html".data ∧
    (pack.post_template_model postBase).file_name ≠
      (serve.generate_post_content_model "base".data postBase).file_name :=
  pack_serve_post_models_agree postBase "base".data (by decide)

/-- C1 counterexample: for the same post file `base.md` the pack-mode and
serve-mode template models differ in `file_name` (`base.html` versus `base`),
a field other than `root_page`, so the models are not identical in every
field except `root_page`. -/
theorem pack_serve_models_differ_counterexample :
    (pack.post_template_model postBase).file_name ≠
      (serve.generate_post_content_model "base".data postBase).file_name ∧
    (pack.post_template_model postBase).file_name = "base.html".data ∧
    (serve.generate_post_content_model "base".data postBase).file_name = "base".data := by
  decide

/-- C2: evaluating the post-assets phase of the pack driver: with two
discovered assets the output directory ends up holding only the second
asset's basename, because `ensure_dir_is_empty` is called inside the copy
loop and wipes the directory before each copy; and with no assets the
directory is never created at all — the directory is not recreated empty once
with one entry per asset. -/
theorem copy_post_assets_loses_assets :
    pack.copy_post_assets
        ["content/posts/a.png".data, "content/posts/b.png".data] none =
      some ["b.png".data] ∧
    pack.copy_post_assets [] none = none := by
  decide

/-- C3: with `index.html` present and `post.html` absent the post-template
loader fails with `NoBlogTemplateFound` — the very same error kind produced
for a missing home template (second conjunct) — not with the distinct
`NoPostsTemplateFound` kind declared in src/errors.rs, which the code never
constructs. -/
theorem post_template_error_kind_not_distinct :
    templates.Post.read_from_dir ["index.html".data] =
      Except.error errors.Error.NoBlogTemplateFound ∧
    templates.Main.read_from_dir ["post.html".data] =
      Except.error errors.Error.NoBlogTemplateFound :=
  ⟨rfl, rfl⟩

theorem serve_static_resolve_ne_bad_request (base_dir uri : Str) (fs : serve.Fs) :
    serve.serve_static_resolve base_dir uri fs ≠ serve.StatusCode.BadRequest := by
  unfold serve.serve_static_resolve
  cases h : fs (serve.path_push base_dir uri) <;> simp [h]

theorem serve_static_root_check_ne_bad_request (base_dir uri : Str) (fs : serve.Fs) :
    serve.serve_static_root_check base_dir uri fs ≠ serve.StatusCode.BadRequest := by
  unfold serve.serve_static_root_check
  split
  · split
    · simp
    · exact serve_static_resolve_ne_bad_request _ _ _
  · exact serve_static_resolve_ne_bad_request _ _ _

/-- C5 (amended): `serve_static` never responds 400. The prefix strip is only
attempted after `starts_with` succeeds, and in that case stripping cannot
fail, so the Bad Request branch is unreachable; for a request path that does
not start with the route prefix the strip is skipped entirely and the
unstripped path is resolved against the base directory, answering 200, 404 or
500. -/
theorem serve_static_never_bad_request (route base_dir uri : Str)
    (excl : Option (List Str)) (fs : serve.Fs) :
    serve.serve_static route base_dir uri excl fs ≠ serve.StatusCode.BadRequest := by
  have hrest :
      (if serve.path_starts_with uri route = true then
        match serve.strip_route uri route with
        | some u => serve.serve_static_root_check base_dir u fs
        | none => serve.StatusCode.BadRequest
      else serve.serve_static_root_check base_dir uri fs) ≠
        serve.StatusCode.BadRequest := by
    by_cases hsw : serve.path_starts_with uri route = true
    · rw [if_pos hsw]
      cases hs : serve.strip_route uri route with
      | none =>
        simp only [serve.path_starts_with, hs, Option.isSome_none] at hsw
        cases hsw
      | some u => exact serve_static_root_check_ne_bad_request base_dir u fs
    · rw [if_neg hsw]
      exact serve_static_root_check_ne_bad_request base_dir uri fs
  simp only [serve.serve_static]
  cases excl with
  | none => exact hrest
  | some exclude =>
    dsimp only
    by_cases hex : serve.has_any_extension uri exclude = true
    · rw [if_pos hex]
      simp
    · rw [if_neg hex]
      exact hrest

/-- C5 counterexample: the request path `/zzz` does not start with the route
prefix `/assets`, yet the static resolver answers 404 Not Found, not 400 Bad
Request. -/
theorem serve_static_unprefixed_not_bad_request :
    serve.serve_static "/assets".data "/srv/templates/assets".data "/zzz".data
        (some ["md".data]) fsEmpty = serve.StatusCode.NotFound ∧
    serve.StatusCode.NotFound ≠ serve.StatusCode.BadRequest := by
  decide

/-- C4: a GET request for the bare route prefix `/assets` on the
template-assets static handler answers 200 OK whenever the base directory
exists: prefix stripping leaves an empty remaining path, the root check (which
expects a remaining leading slash that stripping already removed) does not
fire, and the handler stats and opens the base directory itself — not the 404
the claim and the code's own comment require. -/
theorem serve_static_bare_prefix_is_ok :
    serve.serve_static "/assets".data "/srv/templates/assets".data "/assets".data
        (some ["md".data]) fsAssetsDir = serve.StatusCode.OK := by
  decide

/-- C6 (amended): on every filesystem, markdown converter, parse outcome and
content directory, `read_blog_file` reads exactly one file at the root of the
content directory, namely `content_dir/blog.md` — the reserved root file name
is `blog.md`. -/
theorem read_blog_file_reads_only_blog_md (md : Str → Str)
    (parse : Str → content.ParseOutcome content.BlogFrontMatter)
    (fs : content.ReadFs) (dir : Str) :
    (content.read_blog_file md parse fs dir).2 = [dir ++ "/blog.md".data] := by
  simp only [content.read_blog_file]
  cases h : fs (dir ++ "/blog.md".data) with
  | none => simp [h]
  | some blog_contents =>
    simp only [h]
    split
    · rfl
    · cases parse (content.split_content blog_contents).2 <;> rfl

/-- C6 counterexample: the reserved root file read for the content directory
`content` is `content/blog.md`, which is not `content/home.md`. -/
theorem read_blog_file_not_home_md :
    (content.read_blog_file id (fun _ => content.ParseOutcome.noData)
        (fun _ => none) "content".data).2 = ["content/blog.md".data] ∧
    ("content/blog.md".data : Str) ≠ "content/home.md".data := by
  decide
